import Mathlib

/-!
Verification of the NURBS surface evaluator (`nurbs/Surface.py`).

The `Surface` class is embedded shallowly: Python floats become exact
rationals (`ℚ`), Python lists become Lean lists, and in-place mutation
becomes explicit state passing on the `Surface` structure.  Python's
dynamically typed control-point / weight attributes (which hold flat lists
of points in normal operation but nested lists after the `ctrlptsw`
setter) are embedded with the `PyF` value type.  A method that can raise
returns a `PyRes`, which carries the post-state of the object both on
normal return and at the moment an exception propagates.

The module `nurbs/utilities.py` is not part of the sources; every
definition taken from it is marked `Modelled from the spec:` in its doc
comment and follows the specification's description of that helper.
-/

set_option maxHeartbeats 1000000

attribute [local semireducible] Rat.add Rat.mul Rat.sub Rat.inv Rat.ofScientific

deriving instance DecidableEq for Except

namespace Nurbs

/-- A dynamically-typed Python value: a float (as `ℚ`) or a list of values.
Used for the `_mCtrlPts`, `_mCtrlPts2D` and `_mWeights` attributes, which
hold lists of 3-coordinate points in normal operation but receive nested
lists from the `ctrlptsw` setter. -/
inductive PyF where
  | num (x : ℚ)
  | lst (xs : List PyF)

/-- Decidable equality of dynamically-typed values. -/
def PyF.decEq : (a b : PyF) → Decidable (a = b)
  | .num x, .num y =>
    if h : x = y then isTrue (by rw [h])
    else isFalse (fun he => by injection he with h1; exact h h1)
  | .num _, .lst _ => isFalse (fun he => by injection he)
  | .lst _, .num _ => isFalse (fun he => by injection he)
  | .lst [], .lst [] => isTrue rfl
  | .lst (_ :: _), .lst [] => isFalse (fun he => by injection he with h1; injection h1)
  | .lst [], .lst (_ :: _) => isFalse (fun he => by injection he with h1; injection h1)
  | .lst (a :: as), .lst (b :: bs) =>
    match PyF.decEq a b with
    | isFalse h =>
        isFalse (fun he => by
          injection he with h1; injection h1 with h2 h3; exact h h2)
    | isTrue h1 =>
      match PyF.decEq (.lst as) (.lst bs) with
      | isTrue h2 =>
          isTrue (by
            subst h1; injection h2 with h3; rw [h3])
      | isFalse h2 =>
          isFalse (fun he => by
            injection he with h1; injection h1 with h3 h4
            exact h2 (by rw [h4]))
termination_by a => sizeOf a

instance : DecidableEq PyF := PyF.decEq

/-- Numeric content of a `PyF` (a non-number used in arithmetic is junk;
Python would raise `TypeError`, never reached on well-formed states). -/
def PyF.toQ : PyF → ℚ
  | .num x => x
  | .lst _ => 0

/-- `v[c]` as a number: index into a `PyF` list and read the float. -/
def PyF.coord : PyF → ℕ → ℚ
  | .num _, _ => 0
  | .lst xs, c => (xs.getD c (.num 0)).toQ

/-- Result of a Python method call on an object mutated in place: `ok` is a
normal return, `err` is a propagating exception with its message; both
carry the state the object holds afterwards. -/
inductive PyRes (α : Type) where
  | ok (s : α)
  | err (s : α) (msg : String)
deriving DecidableEq

/-- The object state after the call, whether or not an exception escaped. -/
def PyRes.state : PyRes α → α
  | .ok s => s
  | .err s _ => s

/-- Did the call raise? -/
def PyRes.isErr : PyRes α → Bool
  | .ok _ => false
  | .err _ _ => true

/-- Sum of a list of rationals (the `+=` accumulation loops). -/
def sumQ (l : List ℚ) : ℚ := l.foldr (· + ·) 0

/-- The state of a `Surface` object: the `_m*` attributes of the class. -/
structure Surface where
  mDegreeU : ℕ
  mDegreeV : ℕ
  mKnotVectorU : List ℚ
  mKnotVectorV : List ℚ
  mCtrlPts : List PyF
  mCtrlPts2D : List (List PyF)
  mCtrlPts_sizeU : ℕ
  mCtrlPts_sizeV : ℕ
  mWeights : List PyF
  mDelta : ℚ
  mSurfPts : List (List ℚ)
deriving DecidableEq

/-- Modelled from the spec: the regular sampling grid over `[0, 1]` with
step `delta`, inclusive of both endpoints (`utils.frange(0, 1, delta)`):
the multiples of `delta` below `1`, followed by the endpoint `1`. -/
def frangeQ (delta : ℚ) : List ℚ :=
  ((List.range ⌈1 / delta⌉₊).map fun (k : ℕ) => (k : ℚ) * delta) ++ [1]

/-- Modelled from the spec: `utils.normalize_knotvector` divides every
entry by the maximum entry (the last entry of a non-decreasing vector);
an empty or decreasing vector is invalid input. -/
def normalize_knotvector (l : List ℚ) : Option (List ℚ) :=
  if l ≠ [] ∧ l.Sorted (· ≤ ·) then some (l.map fun x => x / l.getLastD 0)
  else none

/-- Scan of candidate spans used by `find_span`: starting at `i`, advance
while the parameter has not yet fallen below the next knot, for at most
`fuel` steps. -/
def spanGo (U : List ℚ) (u : ℚ) : ℕ → ℕ → ℕ
  | i, 0 => i
  | i, fuel + 1 => if u < U.getD (i + 1) 0 then i else spanGo U u (i + 1) fuel

/-- Modelled from the spec: `utils.find_span(degree, knots, num_ctrlpts, u)`
returns the index `i` with `knots[i] ≤ u < knots[i+1]`, searching the
candidate range `[degree, num_ctrlpts)`; the boundary `u = 1` maps to the
last valid span `num_ctrlpts - 1`.  The spec prescribes binary search;
the equivalent sequential search over the same candidate range is used
here. -/
def find_span (degree : ℕ) (U : List ℚ) (n : ℕ) (u : ℚ) : ℕ :=
  if u = 1 then n - 1 else spanGo U u degree (n - 1 - degree)

/-- `left[j] = u - knots[span + 1 - j]` of the Cox-de Boor recursion. -/
def bfLeft (U : List ℚ) (i : ℕ) (u : ℚ) (j : ℕ) : ℚ := u - U.getD (i + 1 - j) 0

/-- `right[j] = knots[span + j] - u` of the Cox-de Boor recursion. -/
def bfRight (U : List ℚ) (i : ℕ) (u : ℚ) (j : ℕ) : ℚ := U.getD (i + j) 0 - u

/-- One degree-raising pass of the triangular Cox-de Boor recursion: fold
over the degree-`j-1` values with the running `saved` term, producing the
`j+1` values of degree `j`. -/
def bfInner (U : List ℚ) (i : ℕ) (u : ℚ) (j : ℕ) : ℕ → ℚ → List ℚ → List ℚ
  | _, saved, [] => [saved]
  | r, saved, x :: rest =>
      let temp := x / (bfRight U i u (r + 1) + bfLeft U i u (j - r))
      (saved + bfRight U i u (r + 1) * temp) ::
        bfInner U i u j (r + 1) (bfLeft U i u (j - r) * temp) rest

/-- Column `j` of the basis-function triangle: the `j+1` nonzero basis
values of degree `j` at `u`, seeded with `1` at the span position. -/
def basisCol (U : List ℚ) (i : ℕ) (u : ℚ) : ℕ → List ℚ
  | 0 => [1]
  | j + 1 => bfInner U i u (j + 1) 0 0 (basisCol U i u j)

/-- Modelled from the spec: `utils.basis_functions(degree, knots, span, u)`
computes the `degree+1` nonzero basis functions at `u` by the triangular
Cox-de Boor recursion, reusing left/right knot differences. -/
def basis_functions (degree : ℕ) (U : List ℚ) (i : ℕ) (u : ℚ) : List ℚ :=
  basisCol U i u degree

/-- Lower-triangle entry `ndu[j][r]` of the derivative algorithm's table:
the knot difference `right[r+1] + left[j-r]`. -/
def ndud (U : List ℚ) (i : ℕ) (u : ℚ) (j r : ℕ) : ℚ :=
  bfRight U i u (r + 1) + bfLeft U i u (j - r)

/-- The `a[k][j]` coefficients of the derivative back-substitution for
basis index `r`: divided differences of the previous row, zero outside
the valid window `k - r ≤ j ≤ min k (degree - r)`. -/
def aTab (U : List ℚ) (i : ℕ) (u : ℚ) (p r : ℕ) : ℕ → ℕ → ℚ
  | 0, j => if j = 0 then 1 else 0
  | k + 1, j =>
      if (k + 1) - r ≤ j ∧ j ≤ min (k + 1) (p - r) then
        (aTab U i u p r k j - if j = 0 then 0 else aTab U i u p r k (j - 1)) /
          ndud U i u (p - k) (r + j - (k + 1))
      else 0

/-- Modelled from the spec: `utils.basis_functions_ders(degree, knots,
span, u, order)` returns the table `der[k][j]` of `k`-th derivatives of
the `j`-th nonzero basis function: row 0 is the basis values from the
full triangular table, and rows `k ≥ 1` back-substitute the divided
differences `a[k][j]` against lower-degree columns of the triangle,
scaled by `degree!/(degree-k)!`. -/
def basis_functions_ders (p : ℕ) (U : List ℚ) (i : ℕ) (u : ℚ) (order : ℕ) :
    List (List ℚ) :=
  (List.range (order + 1)).map fun k =>
    if k = 0 then basis_functions p U i u
    else
      (List.range (p + 1)).map fun r =>
        (((List.range k).map fun m => ((p - m : ℕ) : ℚ)).foldr (· * ·) 1) *
          sumQ ((List.range (k + 1)).map fun j =>
            aTab U i u p r k j * (basisCol U i u (p - k)).getD (r + j - k) 0)

/-- Modelled from the spec: `utils.check_uv(u, v)` accepts exactly the
parameter pairs inside the unit square. -/
def check_uv (u v : ℚ) : Bool :=
  decide (0 ≤ u ∧ u ≤ 1 ∧ 0 ≤ v ∧ v ≤ 1)

/-- Modelled from the spec: the normal-specific parameter test of
`utils.check_uv(u, v, test_normal, delta)`: the pair must lie inside the
square, at least one sampling step from every boundary. -/
def check_uv_normal (delta u v : ℚ) : Bool :=
  decide (delta ≤ u ∧ u ≤ 1 - delta ∧ delta ≤ v ∧ v ≤ 1 - delta)

/-- Modelled from the spec: `utils.cross_vector` is the 3D cross product. -/
def cross_vector (a b : List ℚ) : List ℚ :=
  [a.getD 1 0 * b.getD 2 0 - a.getD 2 0 * b.getD 1 0,
   a.getD 2 0 * b.getD 0 0 - a.getD 0 0 * b.getD 2 0,
   a.getD 0 0 * b.getD 1 0 - a.getD 1 0 * b.getD 0 0]

/-- Integer square root by bounded descent: the largest `m ≤ k` with
`m * m ≤ n`. -/
def sqrtAux (n : ℕ) : ℕ → ℕ
  | 0 => 0
  | k + 1 => if (k + 1) * (k + 1) ≤ n then k + 1 else sqrtAux n k

/-- Exact square root on perfect-square rationals (and junk elsewhere):
the idealization of the floating-point square root at the points where
the root is exact. -/
def ratSqrt (q : ℚ) : ℚ :=
  if 0 ≤ q then mkRat (sqrtAux q.num.toNat q.num.toNat) (sqrtAux q.den q.den) else 0

/-- Modelled from the spec: `utils.normalize_vector` scales a 3-vector to
unit length; the zero vector is a degenerate input and fails. -/
def normalize_vector (v : List ℚ) : Option (List ℚ) :=
  let m := ratSqrt (v.getD 0 0 ^ 2 + v.getD 1 0 ^ 2 + v.getD 2 0 ^ 2)
  if m = 0 then none
  else some [v.getD 0 0 / m, v.getD 1 0 / m, v.getD 2 0 / m]

/-- `Surface._reset_surface`: clears the calculated surface points, if any. -/
def reset_surface (s : Surface) : Surface :=
  if s.mSurfPts ≠ [] then { s with mSurfPts := [] } else s

/-- `Surface._reset_ctrlpts`: if control points are present, clears the
flat list, the 2D view and the weights, and zeroes both sizes. -/
def reset_ctrlpts (s : Surface) : Surface :=
  if s.mCtrlPts ≠ [] then
    { s with mCtrlPts := [], mCtrlPts2D := [], mWeights := [],
             mCtrlPts_sizeU := 0, mCtrlPts_sizeV := 0 }
  else s

/-- `Surface._check_variables` as a predicate: `true` when the calculation
preconditions hold (nonzero degrees, nonempty control points, nonempty
knot vectors). -/
def check_variables (s : Surface) : Bool :=
  !(s.mDegreeU == 0 || s.mDegreeV == 0) && !s.mCtrlPts.isEmpty &&
    !(s.mKnotVectorU.isEmpty || s.mKnotVectorV.isEmpty)

/-- The `degree_u` setter: rejects a negative degree, else clears the
surface-point cache and stores the degree. -/
def degree_u_set (s : Surface) (value : ℤ) : PyRes Surface :=
  if value < 0 then .err s "Degree cannot be less than zero."
  else .ok { reset_surface s with mDegreeU := value.toNat }

/-- The `degree_v` setter. -/
def degree_v_set (s : Surface) (value : ℤ) : PyRes Surface :=
  if value < 0 then .err s "Degree cannot be less than zero."
  else .ok { reset_surface s with mDegreeV := value.toNat }

/-- The `knotvector_u` setter: clears the cache, then normalizes and
stores the knot vector. -/
def knotvector_u_set (s : Surface) (value : List ℚ) : PyRes Surface :=
  let s1 := reset_surface s
  match normalize_knotvector value with
  | some kv => .ok { s1 with mKnotVectorU := kv }
  | none => .err s1 "Input is not a valid knot vector."

/-- The `knotvector_v` setter. -/
def knotvector_v_set (s : Surface) (value : List ℚ) : PyRes Surface :=
  let s1 := reset_surface s
  match normalize_knotvector value with
  | some kv => .ok { s1 with mKnotVectorV := kv }
  | none => .err s1 "Input is not a valid knot vector."

/-- The `delta` setter: the delta must lie strictly between 0 and 1. -/
def delta_set (s : Surface) (value : ℚ) : PyRes Surface :=
  if value ≤ 0 ∨ 1 ≤ value then
    .err s "Surface calculation delta should be between 0.0 and 1.0."
  else .ok { reset_surface s with mDelta := value }

/-- The `weights` setter: rejects a vector whose length is not
`sizeU * sizeV`, else clears the cache and stores the weights. -/
def weights_set (s : Surface) (value : List ℚ) : PyRes Surface :=
  if value.length ≠ s.mCtrlPts_sizeU * s.mCtrlPts_sizeV then
    .err s "Size of the weight vector should be equal to size of control points."
  else .ok { reset_surface s with mWeights := value.map PyF.num }

/-- Inner coordinate loop of the `ctrlpts` setter: validates each
coordinate of one row (at most 3 components) and appends it to the flat
list; a failure keeps the points appended so far. -/
def ctrlptsCoords : List (List ℚ) → List PyF → PyRes (List PyF)
  | [], acc => .ok acc
  | c :: rest, acc =>
      if 3 < c.length then .err acc "Please input 3D coordinates"
      else ctrlptsCoords rest (acc ++ [PyF.lst (c.map PyF.num)])

/-- Row loop of the `ctrlpts` setter: checks each row holds at least
`degreeU + 1` points, counts the rows in `u_cnt`, and appends every
coordinate to the flat list. -/
def ctrlptsRows (dU : ℕ) :
    List (List (List ℚ)) → List PyF → ℕ → PyRes (List PyF × ℕ)
  | [], acc, cnt => .ok (acc, cnt)
  | row :: rest, acc, cnt =>
      if row.length < dU + 1 then
        .err (acc, cnt)
          "Number of control points in u-direction should be at least degree + 1."
      else
        match ctrlptsCoords row acc with
        | .err acc2 msg => .err (acc2, cnt + 1) msg
        | .ok acc2 => ctrlptsRows dU rest acc2 (cnt + 1)

/-- The 2D control-point view generated from the flat list:
`ctrlpts2d[i][j] = ctrlpts[j + i * sizeV]`. -/
def build2D (flat : List PyF) (sU sV : ℕ) : List (List PyF) :=
  (List.range sU).map fun i =>
    (List.range sV).map fun j => flat.getD (j + i * sV) (.lst [])

/-- The complete rows of the 2D view built before the generation loop
runs off the end of a too-short flat list (Python `IndexError`). -/
def partial2D (flat : List PyF) (sU sV : ℕ) : List (List PyF) :=
  (List.range (min sU (flat.length / sV))).map fun i =>
    (List.range sV).map fun j => flat.getD (j + i * sV) (.lst [])

/-- The `ctrlpts` setter: clears the surface cache and the previous
control net first, validates the grid (at least `degreeV + 1` rows, each
row at least `degreeU + 1` points, coordinates of at most 3 components),
stores the flat list, sets `sizeU` to the row count `u_cnt` and `sizeV`
to the row count `len(value)`, appends the generated 2D view, and resets
the weights to `1.0` in size `sizeU * sizeV`. -/
def ctrlpts_set (s : Surface) (value : List (List (List ℚ))) : PyRes Surface :=
  let s1 := reset_ctrlpts (reset_surface s)
  if value.length < s.mDegreeV + 1 then
    .err s1 "Number of control points in v-direction should be at least degree + 1."
  else
    match ctrlptsRows s.mDegreeU value s1.mCtrlPts 0 with
    | .err (acc, _) msg => .err { s1 with mCtrlPts := acc } msg
    | .ok (acc, cnt) =>
        let sU := cnt
        let sV := value.length
        let s2 := { s1 with mCtrlPts := acc,
                            mCtrlPts_sizeU := sU, mCtrlPts_sizeV := sV }
        if acc.length < sU * sV then
          .err { s2 with mCtrlPts2D := s2.mCtrlPts2D ++ partial2D acc sU sV }
            "index out of range"
        else
          .ok { s2 with mCtrlPts2D := s2.mCtrlPts2D ++ build2D acc sU sV,
                        mWeights := List.replicate (sU * sV) (.num 1) }

/-- The `ctrlpts` getter: the flat list of stored control points. -/
def ctrlpts_get (s : Surface) : List PyF := s.mCtrlPts

/-- The `ctrlptsw` getter: pairs every control point with every weight
(`itertools.product`) and emits `(x*w, y*w, z*w, w)` for each pair. -/
def ctrlptsw_get (s : Surface) : List (List ℚ) :=
  s.mCtrlPts.foldr
    (fun c acc =>
      (s.mWeights.map fun w =>
        [c.coord 0 * w.toQ, c.coord 1 * w.toQ, c.coord 2 * w.toQ, w.toQ]) ++ acc)
    []

/-- The `ctrlptsw` setter: splits each weighted point of each row into a
position (perspective divide by the fourth component) and a weight, and
assigns the resulting nested row lists to the control-point and weight
attributes; a zero weight raises before any attribute is assigned.  The
setter does not clear the surface-point cache, does not update the sizes
or the 2D view, and stores row-nested lists where the other methods keep
flat lists. -/
def ctrlptsw_set (s : Surface) (value : List (List (List ℚ))) : PyRes Surface :=
  if value.any fun udir => udir.any fun c => c.getD 3 0 = 0 then
    .err s "float division by zero"
  else
    .ok { s with
      mCtrlPts := value.map fun udir =>
        PyF.lst (udir.map fun c =>
          PyF.lst [.num (c.getD 0 0 / c.getD 3 0), .num (c.getD 1 0 / c.getD 3 0),
                   .num (c.getD 2 0 / c.getD 3 0)]),
      mWeights := value.map fun udir =>
        PyF.lst (udir.map fun c => PyF.num (c.getD 3 0)) }

/-- The knot span used for the `u` direction. -/
def spanU (s : Surface) (u : ℚ) : ℕ :=
  find_span s.mDegreeU s.mKnotVectorU s.mCtrlPts_sizeU u

/-- The knot span used for the `v` direction. -/
def spanV (s : Surface) (v : ℚ) : ℕ :=
  find_span s.mDegreeV s.mKnotVectorV s.mCtrlPts_sizeV v

/-- The nonzero `u`-direction basis values at `u`. -/
def basisU (s : Surface) (u : ℚ) : List ℚ :=
  basis_functions s.mDegreeU s.mKnotVectorU (spanU s u) u

/-- The nonzero `v`-direction basis values at `v`. -/
def basisV (s : Surface) (v : ℚ) : List ℚ :=
  basis_functions s.mDegreeV s.mKnotVectorV (spanV s v) v

/-- Coordinate `c` of the 2D-view control point `ctrlpts2d[a][b]`. -/
def ctrl2Dq (s : Surface) (a b c : ℕ) : ℚ :=
  ((s.mCtrlPts2D.getD a []).getD b (.lst [])).coord c

/-- The accumulation pattern shared by every sampling/derivative loop of
the class: `sum_l bv[l] * (sum_k bu[k] * f k l)` over the local
`(degreeU+1) x (degreeV+1)` window. -/
def doubleSum (p q : ℕ) (bu bv : List ℚ) (f : ℕ → ℕ → ℚ) : ℚ :=
  sumQ ((List.range (q + 1)).map fun l =>
    bv.getD l 0 * sumQ ((List.range (p + 1)).map fun k => bu.getD k 0 * f k l))

/-- Coordinate `c` of one sample of `evaluate()`: the double summation
`sum_l sum_k basisV[l] * basisU[k] * ctrlpts2d[spanU-degU+k][spanV-degV+l]`. -/
def surfCoord (s : Surface) (u v : ℚ) (c : ℕ) : ℚ :=
  doubleSum s.mDegreeU s.mDegreeV (basisU s u) (basisV s v) fun k l =>
    ctrl2Dq s (spanU s u - s.mDegreeU + k) (spanV s v - s.mDegreeV + l) c

/-- One sample of `evaluate()` at `(u, v)`. -/
def surfPoint (s : Surface) (u v : ℚ) : List ℚ :=
  [surfCoord s u v 0, surfCoord s u v 1, surfCoord s u v 2]

/-- The full sampled point list of `evaluate()`: the outer loop runs over
`v`, the inner loop over `u`, appending one point per `(u, v)`. -/
def surfGrid (s : Surface) : List (List ℚ) :=
  ((frangeQ s.mDelta).map fun v =>
    (frangeQ s.mDelta).map fun u => surfPoint s u v).flatten

/-- `Surface.evaluate`: checks the calculation preconditions (raising
before touching any state if they fail), clears the surface-point cache,
and appends the sampled B-spline surface points. -/
def evaluate (s : Surface) : PyRes Surface :=
  if !check_variables s then
    .err s "Some required parameters for calculations are not set."
  else
    let s1 := reset_surface s
    .ok { s1 with mSurfPts := s1.mSurfPts ++ surfGrid s }

/-- The 2D weighted control-point array built by `evaluate_rational`:
entry `[c_u][c_v]` is `(x*w, y*w, z*w, w)` of flat index
`cnt = c_u * sizeV + c_v`. -/
def ctrlptswGrid (s : Surface) : List (List (List ℚ)) :=
  (List.range s.mCtrlPts_sizeU).map fun cu =>
    (List.range s.mCtrlPts_sizeV).map fun cv =>
      let cnt := cu * s.mCtrlPts_sizeV + cv
      let c := s.mCtrlPts.getD cnt (.lst [])
      let w := (s.mWeights.getD cnt (.num 0)).toQ
      [c.coord 0 * w, c.coord 1 * w, c.coord 2 * w, w]

/-- Component `c` of the homogeneous accumulation of
`evaluate_rational()` at `(u, v)`: the same double summation over the
weighted 4-vectors (`c = 3` is the accumulated weight). -/
def ratCoordW (s : Surface) (u v : ℚ) (c : ℕ) : ℚ :=
  doubleSum s.mDegreeU s.mDegreeV (basisU s u) (basisV s v) fun k l =>
    (((ctrlptswGrid s).getD (spanU s u - s.mDegreeU + k) []).getD
      (spanV s v - s.mDegreeV + l) []).getD c 0

/-- One sample of `evaluate_rational()`: the homogeneous accumulation
followed by the perspective divide by the accumulated weight. -/
def ratPoint (s : Surface) (u v : ℚ) : List ℚ :=
  [ratCoordW s u v 0 / ratCoordW s u v 3, ratCoordW s u v 1 / ratCoordW s u v 3,
   ratCoordW s u v 2 / ratCoordW s u v 3]

/-- The full sampled point list of `evaluate_rational()`. -/
def ratGrid (s : Surface) : List (List ℚ) :=
  ((frangeQ s.mDelta).map fun v =>
    (frangeQ s.mDelta).map fun u => ratPoint s u v).flatten

/-- `Surface.evaluate_rational`: same precondition check and cache reset
as `evaluate`, then the rational (homogeneous) sampling. -/
def evaluate_rational (s : Surface) : PyRes Surface :=
  if !check_variables s then
    .err s "Some required parameters for calculations are not set."
  else
    let s1 := reset_surface s
    .ok { s1 with mSurfPts := s1.mSurfPts ++ ratGrid s }

/-- The derivative table `SKL` computed by `Surface.derivatives` at
`(u, v)`: `SKL[k][l]` is the order-`(k, l)` mixed partial, contracted
first against the `u`-direction derivative basis rows, then against the
`v`-direction rows; rows beyond `dd = min(order - k, dv)` keep their
zero initialization. -/
def dervTable (s : Surface) (u v : ℚ) (order : ℕ) : List (List (List ℚ)) :=
  let p := s.mDegreeU
  let q := s.mDegreeV
  let du := min p order
  let dv := min q order
  let bfdU := basis_functions_ders p s.mKnotVectorU (spanU s u) u du
  let bfdV := basis_functions_ders q s.mKnotVectorV (spanV s v) v dv
  (List.range (du + 1)).map fun k =>
    (List.range (dv + 1)).map fun l =>
      if l ≤ min (order - k) dv then
        [doubleSum p q (bfdU.getD k []) (bfdV.getD l []) fun r t =>
           ctrl2Dq s (spanU s u - p + r) (spanV s v - q + t) 0,
         doubleSum p q (bfdU.getD k []) (bfdV.getD l []) fun r t =>
           ctrl2Dq s (spanU s u - p + r) (spanV s v - q + t) 1,
         doubleSum p q (bfdU.getD k []) (bfdV.getD l []) fun r t =>
           ctrl2Dq s (spanU s u - p + r) (spanV s v - q + t) 2]
      else [0, 0, 0]

/-- `Surface.derivatives`: checks the calculation preconditions and the
parameter pair, then returns the derivative table. -/
def derivatives (s : Surface) (u v : ℚ) (order : ℕ) :
    Except String (List (List (List ℚ))) :=
  if !check_variables s then
    .error "Some required parameters for calculations are not set."
  else if !check_uv u v then
    .error "u and v values should be between 0 and 1."
  else .ok (dervTable s u v order)

/-- `Surface.tangent`: the point and the two first-order partials read
off the order-1 derivative table. -/
def tangent (s : Surface) (u v : ℚ) :
    Except String (List ℚ × List ℚ × List ℚ) :=
  match derivatives s u v 1 with
  | .error msg => .error msg
  | .ok skl =>
      .ok ((skl.getD 0 []).getD 0 [], (skl.getD 1 []).getD 0 [],
           (skl.getD 0 []).getD 1 [])

/-- `Surface.normal`: checks the parameter pair for normal calculation,
takes the order-1 derivative table, crosses the two point-relative
difference vectors `der_u - point` and `der_v - point`, and optionally
normalizes to unit length (a zero cross product is degenerate). -/
def normal (s : Surface) (u v : ℚ) (normalized : Bool) :
    Except String (List ℚ) :=
  if !check_uv_normal s.mDelta u v then
    .error "u and v values are not valid for normal calculation."
  else
    match derivatives s u v 1 with
    | .error msg => .error msg
    | .ok skl =>
        let point := (skl.getD 0 []).getD 0 []
        let der_u := (skl.getD 1 []).getD 0 []
        let der_v := (skl.getD 0 []).getD 1 []
        let vect1 := [der_u.getD 0 0 - point.getD 0 0, der_u.getD 1 0 - point.getD 1 0,
                      der_u.getD 2 0 - point.getD 2 0]
        let vect2 := [der_v.getD 0 0 - point.getD 0 0, der_v.getD 1 0 - point.getD 1 0,
                      der_v.getD 2 0 - point.getD 2 0]
        let nv := cross_vector vect1 vect2
        if normalized then
          match normalize_vector nv with
          | some nn => .ok nn
          | none => .error "Normal is degenerate."
        else .ok nv

/-- Validity of a clamped knot vector for one parametric direction:
non-decreasing entries, the length invariant `len = n + degree + 1`, a
positive degree, at least `degree + 1` control points, value 0 at the
start of the domain span range, value 1 at its end, and a final
nondegenerate span. -/
structure ClampedOK (p : ℕ) (U : List ℚ) (n : ℕ) : Prop where
  sorted : U.Sorted (· ≤ ·)
  len : U.length = n + p + 1
  deg_pos : 1 ≤ p
  size_ok : p + 1 ≤ n
  first_knot : U.getD p 0 = 0
  last_knot : U.getD n 0 = 1
  penult_lt : U.getD (n - 1) 0 < 1

/-! ### Concrete test fixtures -/

/-- The state installed by `Surface.__init__`. -/
def surfaceInit : Surface :=
  { mDegreeU := 0, mDegreeV := 0, mKnotVectorU := [], mKnotVectorV := [],
    mCtrlPts := [], mCtrlPts2D := [], mCtrlPts_sizeU := 0, mCtrlPts_sizeV := 0,
    mWeights := [], mDelta := mkRat 1 100, mSurfPts := [] }

/-- The flat control-point list of the flat bilinear test patch. -/
def patchPts : List PyF :=
  [.lst [.num 0, .num 0, .num 0], .lst [.num 1, .num 0, .num 0],
   .lst [.num 0, .num 1, .num 0], .lst [.num 1, .num 1, .num 0]]

/-- The flat bilinear patch of the specification's concrete scenario:
degree (1,1), knot vectors `[0,0,1,1]`, the 2x2 control grid at
`(0,0,0),(1,0,0),(0,1,0),(1,1,0)`, uniform unit weights. -/
def patch : Surface :=
  { mDegreeU := 1, mDegreeV := 1,
    mKnotVectorU := [0, 0, 1, 1], mKnotVectorV := [0, 0, 1, 1],
    mCtrlPts := patchPts, mCtrlPts2D := build2D patchPts 2 2,
    mCtrlPts_sizeU := 2, mCtrlPts_sizeV := 2,
    mWeights := [.num 1, .num 1, .num 1, .num 1],
    mDelta := mkRat 1 2, mSurfPts := [] }

/-- The flat bilinear patch with sampling delta `1/5`, so that the
parameter pairs `(1/4, 1/4)` and `(3/4, 3/4)` are admissible for the
normal computation (inside the square, one sampling step away from
every boundary). -/
def patchN : Surface := { patch with mDelta := mkRat 1 5 }

/-- A 2-row by 3-column grid: 2 rows (at least `degreeV + 1 = 2`), each
row 3 points (at least `degreeU + 1 = 3`), so the setter accepts it. -/
def gridC2 : List (List (List ℚ)) :=
  [[[0, 0, 0], [1, 0, 0], [2, 0, 0]], [[0, 1, 0], [1, 1, 0], [2, 1, 0]]]

/-- A fresh surface configured with degrees (2, 1). -/
def stateC2 : Surface := { surfaceInit with mDegreeU := 2, mDegreeV := 1 }

/-- A configured surface carrying a nonempty cached surface-point list,
as left by a prior `evaluate()`. -/
def stateC3 : Surface := { patch with mSurfPts := [[0, 0, 0]] }

/-- The patch with non-uniform weights `1, 2, 3, 4` on its 4 points. -/
def stateC5 : Surface :=
  { patch with mWeights := [.num 1, .num 2, .num 3, .num 4] }

/-! ### Auxiliary list lemmas -/

theorem getD_range_map {α : Type} (f : ℕ → α) (d : α) {a n : ℕ} (h : a < n) :
    ((List.range n).map f).getD a d = f a := by
  rw [List.getD_eq_getElem _ d (by simpa using h)]
  simp

theorem getD_replicate_of_lt {α : Type} (x d : α) {i m : ℕ} (h : i < m) :
    (List.replicate m x).getD i d = x := by
  rw [List.getD_eq_getElem _ d (by simpa using h)]
  simp

theorem sumQ_nil : sumQ [] = 0 := rfl

theorem sumQ_cons (x : ℚ) (l : List ℚ) : sumQ (x :: l) = x + sumQ l := rfl

theorem sumQ_congr {n : ℕ} {f g : ℕ → ℚ} (h : ∀ k, k < n → f k = g k) :
    sumQ ((List.range n).map f) = sumQ ((List.range n).map g) := by
  congr 1
  exact List.map_congr_left fun a ha => h a (List.mem_range.mp ha)

theorem sumQ_mul_one {n : ℕ} (f : ℕ → ℚ) :
    sumQ ((List.range n).map fun k => f k * 1) = sumQ ((List.range n).map f) :=
  sumQ_congr fun k _ => mul_one (f k)

theorem sumQ_getD_self (l : List ℚ) :
    sumQ ((List.range l.length).map fun i => l.getD i 0) = sumQ l := by
  induction l with
  | nil => rfl
  | cons x xs ih =>
      rw [List.length_cons, List.range_succ_eq_map, List.map_cons, List.map_map,
        sumQ_cons]
      have hc : ((fun i => (x :: xs).getD i 0) ∘ Nat.succ) = fun i => xs.getD i 0 := by
        funext i
        simp [List.getD_cons_succ]
      rw [hc, ih, List.getD_cons_zero, sumQ_cons]

theorem sorted_getD_mono {U : List ℚ} (hs : U.Sorted (· ≤ ·)) {a b : ℕ}
    (hab : a ≤ b) (hb : b < U.length) : U.getD a 0 ≤ U.getD b 0 := by
  have ha : a < U.length := by omega
  rw [List.getD_eq_getElem _ _ ha, List.getD_eq_getElem _ _ hb]
  rcases eq_or_lt_of_le hab with rfl | hlt
  · exact le_refl _
  · have h2 := hs.rel_get_of_lt
      (show (⟨a, ha⟩ : Fin U.length) < (⟨b, hb⟩ : Fin U.length) from Fin.mk_lt_mk.mpr hlt)
    simpa using h2

/-! ### Basis-function lemmas: lengths and partition of unity -/

theorem bfInner_length (U : List ℚ) (i : ℕ) (u : ℚ) (j : ℕ) (N : List ℚ) :
    ∀ (r : ℕ) (saved : ℚ), (bfInner U i u j r saved N).length = N.length + 1 := by
  induction N with
  | nil => intro r saved; rfl
  | cons x rest ih => intro r saved; simp [bfInner, ih]

theorem basisCol_length (U : List ℚ) (i : ℕ) (u : ℚ) :
    ∀ j, (basisCol U i u j).length = j + 1
  | 0 => rfl
  | j + 1 => by rw [basisCol, bfInner_length, basisCol_length U i u j]

theorem sumQ_bfInner (U : List ℚ) (i : ℕ) (u : ℚ) (j : ℕ) (N : List ℚ) :
    ∀ (r : ℕ) (saved : ℚ),
      (∀ t, r ≤ t → t < r + N.length →
        bfRight U i u (t + 1) + bfLeft U i u (j - t) ≠ 0) →
      sumQ (bfInner U i u j r saved N) = saved + sumQ N := by
  induction N with
  | nil => intro r saved _; simp [bfInner, sumQ_cons, sumQ_nil]
  | cons x rest ih =>
      intro r saved hd
      have hdr : bfRight U i u (r + 1) + bfLeft U i u (j - r) ≠ 0 :=
        hd r le_rfl (by simp)
      simp only [bfInner]
      rw [sumQ_cons, ih (r + 1) _ (fun t h1 h2 => hd t (by omega) (by simp at h2 ⊢; omega))]
      have key : bfRight U i u (r + 1) * (x / (bfRight U i u (r + 1) + bfLeft U i u (j - r))) +
      bfLeft U i u (j - r) * (x / (bfRight U i u (r + 1) + bfLeft U i u (j - r))) = x := by
        rw [← add_mul, mul_comm]
        exact div_mul_cancel₀ x hdr
      rw [sumQ_cons]
      linarith [key]

theorem sumQ_basisCol (U : List ℚ) (i : ℕ) (u : ℚ) (p : ℕ)
    (hs : U.Sorted (· ≤ ·)) (hlen : i + p + 1 ≤ U.length)
    (hspan : U.getD i 0 < U.getD (i + 1) 0) :
    ∀ j, j ≤ p → sumQ (basisCol U i u j) = 1 := by
  intro j
  induction j with
  | zero =>
      intro _
      simp [basisCol, sumQ_cons, sumQ_nil]
  | succ j ih =>
      intro hj
      rw [basisCol, sumQ_bfInner, ih (by omega), zero_add]
      intro t _ ht
      rw [Nat.zero_add, basisCol_length] at ht
      have htj : t ≤ j := by omega
      have harith : bfRight U i u (t + 1) + bfLeft U i u (j + 1 - t) =
          U.getD (i + (t + 1)) 0 - U.getD (i + 1 - (j + 1 - t)) 0 := by
        rw [bfRight, bfLeft]
        ring
      rw [harith]
      have hlo : U.getD (i + 1 - (j + 1 - t)) 0 ≤ U.getD i 0 := by
        apply sorted_getD_mono hs (by omega) (by omega)
      have hhi : U.getD (i + 1) 0 ≤ U.getD (i + (t + 1)) 0 := by
        apply sorted_getD_mono hs (by omega) (by omega)
      have : 0 < U.getD (i + (t + 1)) 0 - U.getD (i + 1 - (j + 1 - t)) 0 := by
        linarith
      exact ne_of_gt this

/-! ### Knot-span location lemmas -/

theorem spanGo_ge (U : List ℚ) (u : ℚ) : ∀ (fuel i : ℕ), i ≤ spanGo U u i fuel
  | 0, _ => le_rfl
  | fuel + 1, i => by
      rw [spanGo]
      split
      · exact le_rfl
      · exact le_trans (Nat.le_succ i) (spanGo_ge U u fuel (i + 1))

theorem spanGo_le (U : List ℚ) (u : ℚ) : ∀ (fuel i : ℕ), spanGo U u i fuel ≤ i + fuel
  | 0, _ => le_rfl
  | fuel + 1, i => by
      rw [spanGo]
      split
      · omega
      · have := spanGo_le U u fuel (i + 1)
        omega

theorem spanGo_upper (U : List ℚ) (u : ℚ) :
    ∀ (fuel i : ℕ), u < U.getD (i + fuel + 1) 0 → u < U.getD (spanGo U u i fuel + 1) 0
  | 0, i, h => h
  | fuel + 1, i, h => by
      rw [spanGo]
      split
      · assumption
      · refine spanGo_upper U u fuel (i + 1) ?_
        rw [show i + 1 + fuel + 1 = i + (fuel + 1) + 1 by omega]
        exact h

theorem spanGo_lower (U : List ℚ) (u : ℚ) :
    ∀ (fuel i : ℕ), U.getD i 0 ≤ u → U.getD (spanGo U u i fuel) 0 ≤ u
  | 0, _, h => h
  | fuel + 1, i, h => by
      rw [spanGo]
      split
      · exact h
      · exact spanGo_lower U u fuel (i + 1) (le_of_not_lt (by assumption))

theorem find_span_ge {p : ℕ} {U : List ℚ} {n : ℕ} (h : ClampedOK p U n) (u : ℚ) :
    p ≤ find_span p U n u := by
  rw [find_span]
  split
  · have := h.size_ok
    omega
  · exact spanGo_ge U u _ p

theorem find_span_le {p : ℕ} {U : List ℚ} {n : ℕ} (h : ClampedOK p U n) (u : ℚ) :
    find_span p U n u ≤ n - 1 := by
  rw [find_span]
  split
  · exact le_rfl
  · have h1 := spanGo_le U u (n - 1 - p) p
    have h2 := h.size_ok
    omega

theorem find_span_strict {p : ℕ} {U : List ℚ} {n : ℕ} (h : ClampedOK p U n)
    {u : ℚ} (hu0 : 0 ≤ u) (hu1 : u ≤ 1) :
    U.getD (find_span p U n u) 0 < U.getD (find_span p U n u + 1) 0 := by
  have hsz := h.size_ok
  rw [find_span]
  split
  · rw [show n - 1 + 1 = n by omega, h.last_knot]
    exact h.penult_lt
  · have hlt : u < 1 := lt_of_le_of_ne hu1 (by assumption)
    have hlow : U.getD (spanGo U u p (n - 1 - p)) 0 ≤ u :=
      spanGo_lower U u _ p (by rw [h.first_knot]; exact hu0)
    have hup : u < U.getD (spanGo U u p (n - 1 - p) + 1) 0 := by
      apply spanGo_upper
      rw [show p + (n - 1 - p) + 1 = n by omega, h.last_knot]
      exact hlt
    exact lt_of_le_of_lt hlow hup

theorem sumQ_basis_at {p : ℕ} {U : List ℚ} {n : ℕ} (h : ClampedOK p U n)
    {u : ℚ} (hu0 : 0 ≤ u) (hu1 : u ≤ 1) :
    sumQ (basis_functions p U (find_span p U n u) u) = 1 := by
  have h2 := find_span_le h u
  exact sumQ_basisCol U (find_span p U n u) u p h.sorted
    (by rw [h.len]; omega) (find_span_strict h hu0 hu1) p le_rfl

theorem mem_frangeQ {delta u : ℚ} (hd : 0 < delta) (hu : u ∈ frangeQ delta) :
    0 ≤ u ∧ u ≤ 1 := by
  rcases List.mem_append.mp hu with hm | hm
  · obtain ⟨k, hk, rfl⟩ := List.mem_map.mp hm
    have hk2 : (k : ℚ) < 1 / delta := Nat.lt_ceil.mp (List.mem_range.mp hk)
    refine ⟨mul_nonneg (Nat.cast_nonneg k) (le_of_lt hd), le_of_lt ?_⟩
    have h3 := mul_lt_mul_of_pos_right hk2 hd
    rwa [one_div, inv_mul_cancel₀ (ne_of_gt hd)] at h3
  · have : u = 1 := by simpa using hm
    subst this
    exact ⟨zero_le_one, le_rfl⟩

/-! ### The double summation: congruence, and value on constant-one data -/

theorem doubleSum_congr {p q : ℕ} {bu bv : List ℚ} {f g : ℕ → ℕ → ℚ}
    (h : ∀ k l, k < p + 1 → l < q + 1 → f k l = g k l) :
    doubleSum p q bu bv f = doubleSum p q bu bv g := by
  unfold doubleSum
  refine sumQ_congr fun l hl => ?_
  have : sumQ ((List.range (p + 1)).map fun k => bu.getD k 0 * f k l) =
      sumQ ((List.range (p + 1)).map fun k => bu.getD k 0 * g k l) :=
    sumQ_congr fun k hk => by rw [h k l hk hl]
  rw [this]

theorem doubleSum_one {p q : ℕ} {bu bv : List ℚ} {f : ℕ → ℕ → ℚ}
    (hbu : bu.length = p + 1) (hbv : bv.length = q + 1)
    (hsu : sumQ bu = 1) (hsv : sumQ bv = 1)
    (hf : ∀ k l, k < p + 1 → l < q + 1 → f k l = 1) :
    doubleSum p q bu bv f = 1 := by
  unfold doubleSum
  have hinner : ∀ l, l < q + 1 →
      sumQ ((List.range (p + 1)).map fun k => bu.getD k 0 * f k l) = 1 := by
    intro l hl
    rw [sumQ_congr fun k hk => by rw [hf k l hk hl, mul_one]]
    rw [← hbu, sumQ_getD_self, hsu]
  rw [sumQ_congr fun l hl => by rw [hinner l hl, mul_one]]
  rw [← hbv, sumQ_getD_self, hsv]

theorem basis_functions_length (p : ℕ) (U : List ℚ) (i : ℕ) (u : ℚ) :
    (basis_functions p U i u).length = p + 1 :=
  basisCol_length U i u p

/-! ### Rational evaluation degenerates to B-spline evaluation -/

theorem ratPoint_eq_surfPoint (s : Surface)
    (hU : ClampedOK s.mDegreeU s.mKnotVectorU s.mCtrlPts_sizeU)
    (hV : ClampedOK s.mDegreeV s.mKnotVectorV s.mCtrlPts_sizeV)
    (h2d : s.mCtrlPts2D = build2D s.mCtrlPts s.mCtrlPts_sizeU s.mCtrlPts_sizeV)
    (hw : s.mWeights =
      List.replicate (s.mCtrlPts_sizeU * s.mCtrlPts_sizeV) (PyF.num 1))
    {u v : ℚ} (hu0 : 0 ≤ u) (hu1 : u ≤ 1) (hv0 : 0 ≤ v) (hv1 : v ≤ 1) :
    ratPoint s u v = surfPoint s u v := by
  have hsu1 : s.mDegreeU ≤ spanU s u := find_span_ge hU u
  have hsu2 : spanU s u ≤ s.mCtrlPts_sizeU - 1 := find_span_le hU u
  have hsv1 : s.mDegreeV ≤ spanV s v := find_span_ge hV v
  have hsv2 : spanV s v ≤ s.mCtrlPts_sizeV - 1 := find_span_le hV v
  have hszU := hU.size_ok
  have hszV := hV.size_ok
  have hcnt : ∀ a b : ℕ, a < s.mCtrlPts_sizeU → b < s.mCtrlPts_sizeV →
      a * s.mCtrlPts_sizeV + b < s.mCtrlPts_sizeU * s.mCtrlPts_sizeV := by
    intro a b ha hb
    calc a * s.mCtrlPts_sizeV + b < (a + 1) * s.mCtrlPts_sizeV := by
          have : (a + 1) * s.mCtrlPts_sizeV = a * s.mCtrlPts_sizeV + s.mCtrlPts_sizeV := by
            ring
          omega
    _ ≤ s.mCtrlPts_sizeU * s.mCtrlPts_sizeV := Nat.mul_le_mul_right _ (by omega)
  have hentry : ∀ a b : ℕ, a < s.mCtrlPts_sizeU → b < s.mCtrlPts_sizeV →
      ((ctrlptswGrid s).getD a []).getD b [] =
        [ctrl2Dq s a b 0, ctrl2Dq s a b 1, ctrl2Dq s a b 2, 1] := by
    intro a b ha hb
    simp only [ctrlptswGrid]
    rw [getD_range_map _ _ ha, getD_range_map _ _ hb]
    rw [hw, getD_replicate_of_lt _ _ (hcnt a b ha hb)]
    simp only [ctrl2Dq, h2d, build2D]
    rw [getD_range_map _ _ ha, getD_range_map _ _ hb]
    simp only [PyF.toQ, mul_one]
    rw [Nat.add_comm b (a * s.mCtrlPts_sizeV)]
  have hbounds : ∀ k l : ℕ, k < s.mDegreeU + 1 → l < s.mDegreeV + 1 →
      spanU s u - s.mDegreeU + k < s.mCtrlPts_sizeU ∧
        spanV s v - s.mDegreeV + l < s.mCtrlPts_sizeV := by
    intro k l hk hl
    omega
  have hw3 : ratCoordW s u v 3 = 1 := by
    unfold ratCoordW
    refine doubleSum_one (basis_functions_length _ _ _ _)
      (basis_functions_length _ _ _ _) (sumQ_basis_at hU hu0 hu1)
      (sumQ_basis_at hV hv0 hv1) fun k l hk hl => ?_
    obtain ⟨ha, hb⟩ := hbounds k l hk hl
    rw [hentry _ _ ha hb]
    rfl
  have hc : ∀ c : ℕ, c < 3 → ratCoordW s u v c = surfCoord s u v c := by
    intro c hc3
    unfold ratCoordW surfCoord
    refine doubleSum_congr fun k l hk hl => ?_
    obtain ⟨ha, hb⟩ := hbounds k l hk hl
    rw [hentry _ _ ha hb]
    interval_cases c <;> rfl
  unfold ratPoint surfPoint
  rw [hw3, div_one, div_one, div_one, hc 0 (by omega), hc 1 (by omega),
    hc 2 (by omega)]

theorem ratGrid_eq_surfGrid (s : Surface)
    (hU : ClampedOK s.mDegreeU s.mKnotVectorU s.mCtrlPts_sizeU)
    (hV : ClampedOK s.mDegreeV s.mKnotVectorV s.mCtrlPts_sizeV)
    (h2d : s.mCtrlPts2D = build2D s.mCtrlPts s.mCtrlPts_sizeU s.mCtrlPts_sizeV)
    (hw : s.mWeights =
      List.replicate (s.mCtrlPts_sizeU * s.mCtrlPts_sizeV) (PyF.num 1))
    (hd : 0 < s.mDelta) : ratGrid s = surfGrid s := by
  unfold ratGrid surfGrid
  congr 1
  refine List.map_congr_left fun v hv => ?_
  refine List.map_congr_left fun u hu => ?_
  obtain ⟨hv0, hv1⟩ := mem_frangeQ hd hv
  obtain ⟨hu0, hu1⟩ := mem_frangeQ hd hu
  exact ratPoint_eq_surfPoint s hU hV h2d hw hu0 hu1 hv0 hv1

/-! ### State-shape lemmas for the setters and evaluators -/

theorem reset_surface_eq (s : Surface) : reset_surface s = { s with mSurfPts := [] } := by
  unfold reset_surface
  split
  · rfl
  · next h =>
      have h2 : s.mSurfPts = [] := by simpa using h
      cases s
      simp_all

theorem evaluate_ok (s : Surface) (h : check_variables s = true) :
    evaluate s = .ok { s with mSurfPts := surfGrid s } := by
  unfold evaluate
  rw [h, reset_surface_eq]
  cases s
  simp

theorem evaluate_rational_ok (s : Surface) (h : check_variables s = true) :
    evaluate_rational s = .ok { s with mSurfPts := ratGrid s } := by
  unfold evaluate_rational
  rw [h, reset_surface_eq]
  cases s
  simp

theorem check_variables_false_iff (s : Surface) :
    check_variables s = false ↔
      (s.mDegreeU = 0 ∨ s.mDegreeV = 0 ∨ s.mCtrlPts = [] ∨
        s.mKnotVectorU = [] ∨ s.mKnotVectorV = []) := by
  unfold check_variables
  simp [List.isEmpty_iff, Bool.and_eq_false_iff, Bool.or_eq_true, not_and_or]
  tauto

/-! ### Claim theorems -/

/-- C1: on every configuration with a valid clamped knot vector in each
direction, a coherent 2D view, and every weight equal to 1, the rational
evaluation `evaluate_rational()` produces exactly the result of the
non-rational `evaluate()`: the same error behavior and the same
surface-point list, point for point. -/
theorem C1_rational_degenerates (s : Surface)
    (hU : ClampedOK s.mDegreeU s.mKnotVectorU s.mCtrlPts_sizeU)
    (hV : ClampedOK s.mDegreeV s.mKnotVectorV s.mCtrlPts_sizeV)
    (h2d : s.mCtrlPts2D = build2D s.mCtrlPts s.mCtrlPts_sizeU s.mCtrlPts_sizeV)
    (hw : s.mWeights =
      List.replicate (s.mCtrlPts_sizeU * s.mCtrlPts_sizeV) (PyF.num 1))
    (hd : 0 < s.mDelta) : evaluate_rational s = evaluate s := by
  unfold evaluate_rational evaluate
  rw [ratGrid_eq_surfGrid s hU hV h2d hw hd]

/-- C1 witness: the hypotheses hold and the conclusion follows on the
concrete flat bilinear patch with unit weights. -/
theorem C1_witness :
    patch.mWeights =
        List.replicate (patch.mCtrlPts_sizeU * patch.mCtrlPts_sizeV) (PyF.num 1) ∧
      (0 : ℚ) < patch.mDelta ∧ evaluate_rational patch = evaluate patch := by
  have hU : ClampedOK patch.mDegreeU patch.mKnotVectorU patch.mCtrlPts_sizeU :=
    ⟨by decide, by decide, by decide, by decide, by decide, by decide, by decide⟩
  have hV : ClampedOK patch.mDegreeV patch.mKnotVectorV patch.mCtrlPts_sizeV :=
    ⟨by decide, by decide, by decide, by decide, by decide, by decide, by decide⟩
  exact ⟨rfl, by decide, C1_rational_degenerates patch hU hV rfl rfl (by decide)⟩

/-- C2: the control-net setter accepts the 2-row-by-3-column grid for
degrees (2, 1) but stores `sizeU = sizeV = 2` (both set to the row
count), so the stored sizes do not reflect the grid's two dimensions:
the flat list holds 6 points while the generated weights hold
`sizeU * sizeV = 4` entries, the sizing invariant
`sizeU ≥ degreeU + 1` fails, and the generated 2D view is misindexed
(its second row pairs the third point of grid row 0 with the first
point of grid row 1). -/
theorem C2_sizes_bug :
    (ctrlpts_set stateC2 gridC2).isErr = false ∧
    (ctrlpts_set stateC2 gridC2).state.mCtrlPts_sizeU = 2 ∧
    (ctrlpts_set stateC2 gridC2).state.mCtrlPts_sizeV = 2 ∧
    (ctrlpts_set stateC2 gridC2).state.mCtrlPts.length = 6 ∧
    (ctrlpts_set stateC2 gridC2).state.mWeights.length = 4 ∧
    (ctrlpts_set stateC2 gridC2).state.mCtrlPts2D =
      [[.lst [.num 0, .num 0, .num 0], .lst [.num 1, .num 0, .num 0]],
       [.lst [.num 2, .num 0, .num 0], .lst [.num 0, .num 1, .num 0]]] ∧
    ¬ stateC2.mDegreeU + 1 ≤ (ctrlpts_set stateC2 gridC2).state.mCtrlPts_sizeU := by
  refine ⟨rfl, rfl, rfl, rfl, rfl, rfl, by decide⟩

/-- C3: the `ctrlptsw` setter completes without error on a surface that
holds cached surface points, and leaves the cached list in place: it is
the one public setter that never calls `_reset_surface`. -/
theorem C3_ctrlptsw_cache_bug :
    (ctrlptsw_set stateC3 [[[2, 2, 2, 2]]]).isErr = false ∧
    (ctrlptsw_set stateC3 [[[2, 2, 2, 2]]]).state.mSurfPts = [[0, 0, 0]] ∧
    stateC3.mSurfPts ≠ [] := by
  refine ⟨rfl, rfl, by simp [stateC3]⟩

/-- C5: on a surface with 4 control points, the `ctrlptsw` getter
returns 16 entries (every control point paired with every weight via
`itertools.product`), not one entry per control point. -/
theorem C5_ctrlptsw_getter_bug :
    (ctrlptsw_get stateC5).length = 16 ∧ stateC5.mCtrlPts.length = 4 ∧
      (ctrlptsw_get stateC5).length ≠ stateC5.mCtrlPts.length := by
  refine ⟨rfl, rfl, by decide⟩

/-- C7 counterexample: calling the control-net setter with an invalid
grid (no rows) on a surface holding 4 control points raises, but the
stored control-point state after the failed call is not the state
before the call: the flat list has been cleared. -/
theorem C7_counterexample :
    (ctrlpts_set patch []).isErr = true ∧
      (ctrlpts_set patch []).state.mCtrlPts.length ≠ patch.mCtrlPts.length := by
  refine ⟨rfl, by decide⟩

/-- C7 (amended): when the control-net setter raises one of its
validation errors (grid too small, row too short, or an overlong
coordinate) on a surface that held control points, the prior state is
not restored: the setter has already cleared it, so after the failure
both sizes are zero and the weights and the 2D view are empty (the flat
list retains exactly the coordinates appended before the error). -/
theorem C7_amended (s : Surface) (value : List (List (List ℚ))) (s2 : Surface)
    (msg : String) (h1 : s.mCtrlPts ≠ [])
    (h2 : ctrlpts_set s value = .err s2 msg) (h3 : msg ≠ "index out of range") :
    s2.mCtrlPts_sizeU = 0 ∧ s2.mCtrlPts_sizeV = 0 ∧ s2.mWeights = [] ∧
      s2.mCtrlPts2D = [] := by
  have hs1 : reset_ctrlpts (reset_surface s) =
      { s with mCtrlPts := [], mCtrlPts2D := [], mWeights := [],
               mCtrlPts_sizeU := 0, mCtrlPts_sizeV := 0, mSurfPts := [] } := by
    rw [reset_surface_eq]
    unfold reset_ctrlpts
    rw [if_pos (by simpa using h1)]
  unfold ctrlpts_set at h2
  rw [hs1] at h2
  simp only [] at h2
  split at h2
  · cases h2
    exact ⟨rfl, rfl, rfl, rfl⟩
  · split at h2
    · cases h2
      exact ⟨rfl, rfl, rfl, rfl⟩
    · split at h2
      · cases h2
        exact absurd rfl h3
      · cases h2

/-- C7 witness: the amended statement instantiated on the patch and the
empty grid. -/
theorem C7_witness :
    patch.mCtrlPts ≠ [] ∧
      ((ctrlpts_set patch []).state.mCtrlPts_sizeU = 0 ∧
       (ctrlpts_set patch []).state.mCtrlPts_sizeV = 0 ∧
       (ctrlpts_set patch []).state.mWeights = [] ∧
       (ctrlpts_set patch []).state.mCtrlPts2D = []) := by
  refine ⟨by simp [patch, patchPts], ?_⟩
  exact C7_amended patch []
    { patch with mCtrlPts := [], mCtrlPts2D := [], mWeights := [],
                 mCtrlPts_sizeU := 0, mCtrlPts_sizeV := 0 }
    "Number of control points in v-direction should be at least degree + 1."
    (by simp [patch, patchPts]) rfl (by decide)

/-- C9: on a valid configuration, evaluating twice with no intervening
mutation succeeds both times and yields identical surface-point lists. -/
theorem C9_evaluate_idempotent (s : Surface) (h : check_variables s = true) :
    (evaluate (evaluate s).state).state.mSurfPts = (evaluate s).state.mSurfPts ∧
      (evaluate (evaluate s).state).isErr = false := by
  rw [evaluate_ok s h]
  have h2 : check_variables { s with mSurfPts := surfGrid s } = true := h
  rw [PyRes.state, evaluate_ok _ h2]
  exact ⟨rfl, rfl⟩

/-- C9 witness: the idempotence theorem instantiated on the patch. -/
theorem C9_witness :
    check_variables patch = true ∧
      (evaluate (evaluate patch).state).state.mSurfPts =
        (evaluate patch).state.mSurfPts :=
  ⟨by decide, (C9_evaluate_idempotent patch (by decide)).1⟩

/-- C10: the weights setter raises exactly when the input length differs
from `sizeU * sizeV`; an input of the right length is stored verbatim,
with no positivity (or nonzero) check on the individual weights. -/
theorem C10_weights_iff (s : Surface) (value : List ℚ) :
    ((weights_set s value).isErr = true ↔
      value.length ≠ s.mCtrlPts_sizeU * s.mCtrlPts_sizeV) ∧
    (value.length = s.mCtrlPts_sizeU * s.mCtrlPts_sizeV →
      (weights_set s value).isErr = false ∧
        (weights_set s value).state.mWeights = value.map PyF.num) := by
  unfold weights_set
  by_cases h : value.length = s.mCtrlPts_sizeU * s.mCtrlPts_sizeV
  · rw [if_neg (by simpa using h)]
    refine ⟨by simp [PyRes.isErr, h], fun _ => ⟨rfl, ?_⟩⟩
    rw [PyRes.state, reset_surface_eq]
  · rw [if_pos h]
    exact ⟨by simp [PyRes.isErr, h], fun hh => absurd hh h⟩

/-- C10 witness: a weight vector of the correct length containing a zero
and a negative weight is accepted and stored verbatim on the patch. -/
theorem C10_witness :
    ([0, -1, mkRat 1 2, 3] : List ℚ).length =
        patch.mCtrlPts_sizeU * patch.mCtrlPts_sizeV ∧
      (weights_set patch [0, -1, mkRat 1 2, 3]).isErr = false ∧
        (weights_set patch [0, -1, mkRat 1 2, 3]).state.mWeights =
          [.num 0, .num (-1), .num (mkRat 1 2), .num 3] :=
  ⟨rfl, ((C10_weights_iff patch [0, -1, mkRat 1 2, 3]).2 rfl).1,
    ((C10_weights_iff patch [0, -1, mkRat 1 2, 3]).2 rfl).2⟩

/-- C6: `evaluate()` and `evaluate_rational()` raise their precondition
error exactly when a degree is zero, the control-point list is empty, or
a knot vector is empty; and when they raise, the object state — in
particular the previously cached surface-point list — is exactly the
state before the call. -/
theorem C6_precondition_iff (s : Surface) :
    ((evaluate s).isErr = true ↔
      (s.mDegreeU = 0 ∨ s.mDegreeV = 0 ∨ s.mCtrlPts = [] ∨
        s.mKnotVectorU = [] ∨ s.mKnotVectorV = [])) ∧
    (evaluate_rational s).isErr = (evaluate s).isErr ∧
    ((evaluate s).isErr = true → (evaluate s).state = s) ∧
    ((evaluate_rational s).isErr = true → (evaluate_rational s).state = s) := by
  by_cases hc : check_variables s = true
  · rw [evaluate_ok s hc, evaluate_rational_ok s hc]
    refine ⟨?_, rfl, by simp [PyRes.isErr], by simp [PyRes.isErr]⟩
    simp only [PyRes.isErr, Bool.false_eq_true, false_iff]
    intro hcond
    have := (check_variables_false_iff s).mpr hcond
    rw [hc] at this
    cases this
  · have hcf : check_variables s = false := by simpa using hc
    have hcond := (check_variables_false_iff s).mp hcf
    unfold evaluate evaluate_rational
    rw [hcf]
    exact ⟨by simpa [PyRes.isErr] using hcond, rfl, fun _ => rfl, fun _ => rfl⟩

/-- C6 witness: a state with `degreeU = 0` makes `evaluate` raise and
leaves the state untouched. -/
theorem C6_witness :
    (evaluate surfaceInit).isErr = true ∧
      (evaluate surfaceInit).state = surfaceInit :=
  have h := C6_precondition_iff surfaceInit
  have he : (evaluate surfaceInit).isErr = true := h.1.mpr (Or.inl rfl)
  ⟨he, h.2.2.1 he⟩

/-- C8: whenever the precondition and parameter checks pass,
`derivatives(u, v, order)` returns its table, and the order-0 entry
`SKL[0][0]` is exactly the surface point computed by the `evaluate()`
double summation at the same `(u, v)`. -/
theorem C8_skl00_eq_evaluate (s : Surface) (u v : ℚ) (order : ℕ)
    (h1 : check_variables s = true) (h2 : check_uv u v = true) :
    derivatives s u v order = .ok (dervTable s u v order) ∧
      ((dervTable s u v order).getD 0 []).getD 0 [] = surfPoint s u v := by
  constructor
  · unfold derivatives
    rw [h1, h2]
    simp
  · have hbu : (basis_functions_ders s.mDegreeU s.mKnotVectorU (spanU s u) u
        (min s.mDegreeU order)).getD 0 [] = basisU s u := by
      unfold basis_functions_ders
      rw [getD_range_map _ _ (by omega)]
      rfl
    have hbv : (basis_functions_ders s.mDegreeV s.mKnotVectorV (spanV s v) v
        (min s.mDegreeV order)).getD 0 [] = basisV s v := by
      unfold basis_functions_ders
      rw [getD_range_map _ _ (by omega)]
      rfl
    simp only [dervTable]
    rw [getD_range_map _ _ (by omega : 0 < min s.mDegreeU order + 1)]
    rw [getD_range_map _ _ (by omega : 0 < min s.mDegreeV order + 1)]
    rw [if_pos (Nat.zero_le _)]
    rw [hbu, hbv]
    rfl

/-- C4: on the flat bilinear patch, `normal(u, v, normalized=true)` is
not independent of `(u, v)`: it returns `(0, 0, -1)` at the admissible
interior pair `(1/4, 1/4)` but `(0, 0, 1)` at `(3/4, 3/4)`, because the
implementation crosses the point-relative differences
`der_u - point` and `der_v - point` instead of the derivatives,
producing the sign of `u + v - 1`. -/
theorem C4_normal_bug :
    normal patchN (mkRat 1 4) (mkRat 1 4) true = .ok [0, 0, -1] ∧
      normal patchN (mkRat 3 4) (mkRat 3 4) true = .ok [0, 0, 1] ∧
      ([0, 0, -1] : List ℚ) ≠ [0, 0, 1] := by
  refine ⟨by decide, by decide, by decide⟩

/-- C8 witness: the derivative-table agreement instantiated on the patch
at `(1/2, 1/2)` with order 2. -/
theorem C8_witness :
    check_variables patch = true ∧ check_uv (mkRat 1 2) (mkRat 1 2) = true ∧
      ((dervTable patch (mkRat 1 2) (mkRat 1 2) 2).getD 0 []).getD 0 [] =
        surfPoint patch (mkRat 1 2) (mkRat 1 2) :=
  ⟨by decide, by decide,
    (C8_skl00_eq_evaluate patch (mkRat 1 2) (mkRat 1 2) 2 (by decide) (by decide)).2⟩

end Nurbs
